import Mathlib

/-!
Verification of the trading-strategy candle subsystem.

The development shallowly embeds the repository's Python sources:

* `tradingstrategy/direct_feed/candle_feed.py` (the `CandleFeed` class),
* `tradingstrategy/chain.py` (the lazily initialised chain-metadata registry),
* the `GroupedCandleUniverse` operations and the OHLCV resampler, whose
  defining modules are absent from the source tree and are therefore
  modelled from the specification (their doc comments say so explicitly).

Tables (pandas `DataFrame`s indexed by timestamp) are embedded as Lean
lists of rows in index order; timestamps, durations and prices are
embedded as `Int`; fallible operations return `Except String`.
-/

/-- One OHLCV row.  Mirrors the canonical candle schema
(`pair_id, timestamp, open, high, low, close, volume`); `open` is spelt
`open_` because `open` is a Lean keyword. -/
structure Candle where
  pair_id : Nat
  timestamp : Int
  open_ : Int
  high : Int
  low : Int
  close : Int
  volume : Int
deriving DecidableEq

/-- Comparison of candles by timestamp, non-strict (the order of a
timestamp-indexed table). -/
def candleLe (a b : Candle) : Prop := a.timestamp ≤ b.timestamp

/-- Comparison of candles by timestamp, strict (ascending and unique by
timestamp, the `GroupedCandleUniverse` per-pair invariant). -/
def candleLt (a b : Candle) : Prop := a.timestamp < b.timestamp

instance : DecidableRel candleLe := fun a b => Int.decLe a.timestamp b.timestamp

instance : DecidableRel candleLt := fun a b => Int.decLt a.timestamp b.timestamp

instance : IsTotal Candle candleLe := ⟨fun a b => Int.le_total a.timestamp b.timestamp⟩

instance : IsTrans Candle candleLe := ⟨fun _ _ _ hab hbc => Int.le_trans hab hbc⟩

/-- One raw trade row (`pair_id, timestamp, price, amount`); the amount is
signed by trade direction. -/
structure Trade where
  pair_id : Nat
  timestamp : Int
  price : Int
  amount : Int
deriving DecidableEq

/-- Comparison of trades by timestamp (chronological order). -/
def tradeLe (a b : Trade) : Prop := a.timestamp ≤ b.timestamp

instance : DecidableRel tradeLe := fun a b => Int.decLe a.timestamp b.timestamp

/-- A bucket width: duration plus optional offset
(`tradingstrategy/direct_feed/timeframe.py`, modelled from the spec since
the module is absent from the source tree). -/
structure Timeframe where
  duration : Int
  offset : Int
deriving DecidableEq

/-- Modelled from the spec: the bucket-start computation of the absent
`timeframe.py`, "bucket_start = floor((instant - offset) / duration) *
duration + offset". -/
def Timeframe.bucket_start (tf : Timeframe) (instant : Int) : Int :=
  (instant - tf.offset).fdiv tf.duration * tf.duration + tf.offset

/-- Aggregate one non-empty bucket of trades (given in chronological
order as head `t` and tail `rest`) into a candle: open is the first
price, close the last, high/low the extremes, volume the sum of absolute
amounts. -/
def candle_of_bucket (pid : Nat) (bs : Int) (t : Trade) (rest : List Trade) : Candle :=
  { pair_id := pid
    timestamp := bs
    open_ := t.price
    high := rest.foldl (fun m x => max m x.price) t.price
    low := rest.foldl (fun m x => min m x.price) t.price
    close := (rest.getLastD t).price
    volume := ((t :: rest).map (fun x => (x.amount.natAbs : Int))).sum }

/-- Modelled from the spec: `ohlcv_resample_trades` of the absent
`tradingstrategy/direct_feed/ohlcv_aggregate.py`.  Trades are sorted by
timestamp (the spec requires sorting rather than assuming order), grouped
by (pair_id, bucket start), each non-empty group is aggregated into one
candle, and the resulting rows are emitted in ascending timestamp order.
A bucket with no trades produces no row. -/
def ohlcv_resample_trades (trades : List Trade) (timeframe : Timeframe) : List Candle :=
  let st := trades.insertionSort tradeLe
  let keys := (st.map (fun t => (t.pair_id, timeframe.bucket_start t.timestamp))).dedup
  let raw := keys.filterMap (fun k =>
    match st.filter (fun t =>
        decide (t.pair_id = k.1) && decide (timeframe.bucket_start t.timestamp = k.2)) with
    | [] => none
    | t :: rest => some (candle_of_bucket k.1 k.2 t rest))
  raw.insertionSort candleLe

/-- Modelled from the spec: `get_feed_for_pair` of the absent
`ohlcv_aggregate.py` filters a multi-pair candle table down to one pair's
rows, preserving timestamp order (returning an empty table when the pair
is absent, the documented implementer's choice). -/
def get_feed_for_pair (df : List Candle) (pair : Nat) : List Candle :=
  df.filter (fun c => decide (c.pair_id = pair))

/-- One update cycle from the upstream trade source
(`tradingstrategy/direct_feed/trade_feed.py`, interface shape from the
spec: cycle counter, correction-window start, trade table). -/
structure TradeDelta where
  cycle : Nat
  start_ts : Int
  trades : List Trade
deriving DecidableEq

/-- Pair identifiers are opaque integers. -/
abbrev PairId := Nat

/-- The index of a candle table is monotonically non-decreasing by
timestamp (pandas `is_monotonic_increasing`). -/
def monotonic_increasing (df : List Candle) : Prop := df.Pairwise candleLe

/-- The index of a candle table is monotonically non-increasing by
timestamp (pandas `is_monotonic_decreasing`). -/
def monotonic_decreasing (df : List Candle) : Prop :=
  df.Pairwise (fun a b => b.timestamp ≤ a.timestamp)

instance (df : List Candle) : Decidable (monotonic_increasing df) :=
  List.instDecidablePairwise df

instance (df : List Candle) : Decidable (monotonic_decreasing df) :=
  List.instDecidablePairwise df

/-- Embedding of pandas `DataFrame.truncate(after=...)` on a
timestamp-indexed candle table: it requires a monotonic index (raising
`ValueError` otherwise) and keeps exactly the rows whose timestamp is
less than or equal to `after` (label slicing is inclusive of the `after`
label). -/
def truncate_after (df : List Candle) (after : Int) : Except String (List Candle) :=
  if monotonic_increasing df ∨ monotonic_decreasing df then
    Except.ok (df.filter (fun c => decide (c.timestamp ≤ after)))
  else
    Except.error "truncate requires a sorted index"

/-- State of `CandleFeed`
(`tradingstrategy/direct_feed/candle_feed.py`): the tracked timeframe,
the owned candle table and the last applied cycle. -/
structure CandleFeed where
  timeframe : Timeframe
  candle_df : List Candle
  last_cycle : Nat
deriving DecidableEq

/-- Embedding of `CandleFeed.__init__(pairs, timeframe)`: the `pairs`
argument is accepted but never stored; the owned table starts empty and
`last_cycle` starts at 0. -/
def CandleFeed.init (pairs : List PairId) (timeframe : Timeframe) : CandleFeed :=
  { timeframe := timeframe, candle_df := [], last_cycle := 0 }

/-- Embedding of `CandleFeed.apply_delta`: truncate the owned table at
`delta.start_ts` (pandas semantics, inclusive), resample the delta's
trades, concatenate, and record the cycle. -/
def CandleFeed.apply_delta (feed : CandleFeed) (delta : TradeDelta) : Except String CandleFeed :=
  match truncate_after feed.candle_df delta.start_ts with
  | Except.error e => Except.error e
  | Except.ok cropped_df =>
    let candles := ohlcv_resample_trades delta.trades feed.timeframe
    Except.ok { feed with candle_df := cropped_df ++ candles, last_cycle := delta.cycle }

/-- Embedding of `CandleFeed.get_candles_by_pair`. -/
def CandleFeed.get_candles_by_pair (feed : CandleFeed) (pair : PairId) : List Candle :=
  get_feed_for_pair feed.candle_df pair

/-- Apply a sequence of deltas in order (stopping at the first error). -/
def CandleFeed.apply_deltas (feed : CandleFeed) (ds : List TradeDelta) : Except String CandleFeed :=
  match ds with
  | [] => Except.ok feed
  | d :: rest =>
    match feed.apply_delta d with
    | Except.error e => Except.error e
    | Except.ok f2 => f2.apply_deltas rest

/-- Project the candle table out of an `apply_delta` result (the empty
table for the error case); used only to state concrete computations. -/
def ok_candles (e : Except String CandleFeed) : List Candle :=
  match e with
  | Except.ok f => f.candle_df
  | Except.error _ => []

/-- Modelled from the spec: `GroupedCandleUniverse` of the absent
`tradingstrategy/candle.py` — a read-only index over a candle table,
partitioned by pair and sorted ascending within each pair. -/
structure GroupedCandleUniverse where
  df : List Candle

/-- Modelled from the spec: a pair's full ascending series (the absent
`candle.py`'s `get_candles_by_pair`). -/
def GroupedCandleUniverse.get_candles_by_pair (u : GroupedCandleUniverse) (pair_id : Nat) :
    List Candle :=
  u.df.filter (fun c => decide (c.pair_id = pair_id))

/-- Rightmost candle of the series whose timestamp does not exceed
`when` (the ordered lookup used by the tolerant price query); on an
ascending series this is the candle with the greatest timestamp ≤ `when`. -/
def last_at_or_before : List Candle → Int → Option Candle
  | [], _ => none
  | c :: rest, when_ =>
    match last_at_or_before rest when_ with
    | some c2 => some c2
    | none => if c.timestamp ≤ when_ then some c else none

/-- Modelled from the spec: `get_price_with_tolerance(pair_id, when,
tolerance)` of the absent `candle.py`.  Ordered lookup of the rightmost
candle with timestamp ≤ `when`; returns `(close, distance)` with
`distance = when - timestamp`, failing with `CandleSampleUnavailable`
when no such candle exists or when `distance > tolerance` (the boundary
`distance = tolerance` is accepted). -/
def GroupedCandleUniverse.get_price_with_tolerance (u : GroupedCandleUniverse)
    (pair_id : Nat) (when_ tolerance : Int) : Except String (Int × Int) :=
  match last_at_or_before (u.get_candles_by_pair pair_id) when_ with
  | none => Except.error "CandleSampleUnavailable"
  | some c =>
    if tolerance < when_ - c.timestamp then Except.error "CandleSampleUnavailable"
    else Except.ok (c.close, when_ - c.timestamp)

/-- Modelled from the spec: `get_single_pair_data(timestamp,
allow_current)` of the absent `candle.py` — the table prefix known
strictly before `timestamp`, or up to and including it when
`allow_current` is set (a single-pair universe is assumed, so no pair
filter is applied). -/
def GroupedCandleUniverse.get_single_pair_data (u : GroupedCandleUniverse)
    (timestamp : Int) (allow_current : Bool) : List Candle :=
  if allow_current then u.df.takeWhile (fun c => decide (c.timestamp ≤ timestamp))
  else u.df.takeWhile (fun c => decide (c.timestamp < timestamp))

/-- One chain-metadata record (`tradingstrategy/chain.py`): the fields of
the per-chain JSON document that the module reads or overrides. -/
structure ChainData where
  name : String
  slug : String
  svg_icon : String
  infoURL : String
deriving DecidableEq

/-- Embedding of the `ChainId` enum of `tradingstrategy/chain.py`. -/
inductive ChainId where
  | ethereum
  | bsc
  | polygon
deriving DecidableEq

/-- The integer value of each enum member. -/
def ChainId.value : ChainId → Nat
  | ethereum => 1
  | bsc => 56
  | polygon => 137

/-- Iteration order of `for chain_id in ChainId` (definition order of the
enum members). -/
def ChainId.all : List ChainId := [ChainId.ethereum, ChainId.bsc, ChainId.polygon]

/-- Embedding of `_CHAIN_DATA_OVERRIDES` applied via `dict.update`: the
override entries replace the name, slug and icon for the three known
chains and leave any other record unchanged. -/
def _CHAIN_DATA_OVERRIDES (chain_id : Nat) (d : ChainData) : ChainData :=
  match chain_id with
  | 1 => { d with
      name := "Ethereum"
      slug := "ethereum"
      svg_icon := "https://upload.wikimedia.org/wikipedia/commons/0/05/Ethereum_logo_2014.svg" }
  | 56 => { d with
      name := "Binance Smart Chain"
      slug := "binance"
      svg_icon := "https://hv4gxzchk24cqfezebn3ujjz6oy2kbtztv5vghn6kpbkjc3vg4rq.arweave.net/fgp9wHyH92hION8E6CuPtUNbmiTlqsl23QbQlwA8cZQ" }
  | 137 => { d with
      name := "Polygon"
      slug := "polygon"
      svg_icon := "https://hv4gxzchk24cqfezebn3ujjz6oy2kbtztv5vghn6kpbkjc3vg4rq.arweave.net/nLW0IfMZnhhaqdN1AbzC4d1NLZSpBlIMEHhXq-KcOws" }
  | _ => d

/-- The two module-level dictionaries of `tradingstrategy/chain.py`:
`_chain_data` (chain id to metadata record) and `_slug_map` (slug to
chain id), embedded as association lists in insertion order. -/
structure ChainRegistry where
  _chain_data : List (Nat × ChainData)
  _slug_map : List (String × Nat)
deriving DecidableEq

/-- The loading loop of `_ensure_chain_data_lazy_init`: for each enum
member check the data folder exists (`RuntimeError` otherwise), read the
chain's JSON file (`ChainDataDoesNotExist` when missing), apply the
overrides and insert into `_chain_data`. -/
def load_chain_data (folder_exists : Bool) (fs : Nat → Option ChainData) :
    List ChainId → List (Nat × ChainData) → Except String (List (Nat × ChainData))
  | [], acc => Except.ok acc
  | cid :: rest, acc =>
    if folder_exists then
      match fs cid.value with
      | none => Except.error "ChainDataDoesNotExist"
      | some d =>
        load_chain_data folder_exists fs rest
          (acc ++ [(cid.value, _CHAIN_DATA_OVERRIDES cid.value d)])
    else Except.error "RuntimeError"

/-- The slug-map building loop: `_slug_map[data.slug] = chain_id` for
every entry of `_chain_data`, appended to the existing map. -/
def build_slug_map (entries : List (Nat × ChainData)) : List (String × Nat) :=
  entries.map (fun e => (e.2.slug, e.1))

/-- Embedding of `_ensure_chain_data_lazy_init`: when `_chain_data` is
already non-empty (Python dict truthiness) return immediately without
touching the registry; otherwise load every chain's data and rebuild the
slug map.  The filesystem is passed explicitly (`folder_exists` for the
chain-data folder, `fs` for the per-chain JSON files). -/
def _ensure_chain_data_lazy_init (folder_exists : Bool) (fs : Nat → Option ChainData)
    (s : ChainRegistry) : Except String ChainRegistry :=
  if s._chain_data.isEmpty then
    match load_chain_data folder_exists fs ChainId.all s._chain_data with
    | Except.error e => Except.error e
    | Except.ok entries =>
      Except.ok { _chain_data := entries, _slug_map := s._slug_map ++ build_slug_map entries }
  else Except.ok s

/-- Dictionary lookup in the embedded `_chain_data`. -/
def chain_data_get (l : List (Nat × ChainData)) (k : Nat) : Option ChainData :=
  (l.find? (fun e => decide (e.1 = k))).map (fun e => e.2)

/-- Embedding of `_get_chain_data(chain_id)`: run the lazy initialiser,
then read `_chain_data[chain_id]` (a `KeyError` when absent).  Returns
the registry state after the call together with the value. -/
def _get_chain_data (folder_exists : Bool) (fs : Nat → Option ChainData)
    (s : ChainRegistry) (chain_id : Nat) : Except String (ChainRegistry × ChainData) :=
  match _ensure_chain_data_lazy_init folder_exists fs s with
  | Except.error e => Except.error e
  | Except.ok s2 =>
    match chain_data_get s2._chain_data chain_id with
    | none => Except.error "KeyError"
    | some d => Except.ok (s2, d)

/-- Embedding of `_get_slug_map()`: run the lazy initialiser, then return
`_slug_map` together with the registry state after the call. -/
def _get_slug_map (folder_exists : Bool) (fs : Nat → Option ChainData)
    (s : ChainRegistry) : Except String (ChainRegistry × List (String × Nat)) :=
  match _ensure_chain_data_lazy_init folder_exists fs s with
  | Except.error e => Except.error e
  | Except.ok s2 => Except.ok (s2, s2._slug_map)

/-- A one-unit timeframe used in the concrete examples. -/
def exampleTimeframe : Timeframe := { duration := 1, offset := 0 }

/-- A single trade of pair 1 at instant 0. -/
def exampleTrade : Trade := { pair_id := 1, timestamp := 0, price := 10, amount := 1 }

/-- The candle obtained by resampling `exampleTrade` on `exampleTimeframe`. -/
def exampleCandle : Candle :=
  { pair_id := 1, timestamp := 0, open_ := 10, high := 10, low := 10, close := 10, volume := 1 }

/-- A feed owning exactly the candle at instant 0. -/
def exampleFeed : CandleFeed :=
  { timeframe := exampleTimeframe, candle_df := [exampleCandle], last_cycle := 0 }

/-- A delta whose correction window starts at instant 0 and carries no trades. -/
def exampleEmptyDelta : TradeDelta := { cycle := 1, start_ts := 0, trades := [] }

/-- A delta whose correction window starts at instant 0 and whose trades
resample to the candle at instant 0 again. -/
def exampleDelta : TradeDelta := { cycle := 1, start_ts := 0, trades := [exampleTrade] }

/-- The feed of the overlap example: it owns the candle at instant 0 and
has already applied cycle 3. -/
def exampleFeedCycle3 : CandleFeed :=
  { timeframe := exampleTimeframe, candle_df := [exampleCandle], last_cycle := 3 }

/-- An overlapping delta: its resampled candle has the timestamp 0 that
the truncated prefix also retains. -/
def exampleOverlapDelta : TradeDelta := { cycle := 4, start_ts := 0, trades := [exampleTrade] }

/-- A delta whose resampled candle lands strictly after its `start_ts`. -/
def exampleFreshDelta : TradeDelta :=
  { cycle := 2, start_ts := 0, trades := [{ pair_id := 1, timestamp := 1, price := 12, amount := 2 }] }

/-- The synthetic single-pair universe of the test suite: candles at
2020-01-01, 2020-02-01, 2020-03-01 and 2020-09-01 (timestamps counted in
days since 2020-01-01: 0, 31, 60, 244) with prices scaled by 100. -/
def exampleUniverse : GroupedCandleUniverse :=
  { df :=
    [ { pair_id := 1, timestamp := 0, open_ := 10010, high := 10010, low := 10010,
        close := 10010, volume := 1 }
    , { pair_id := 1, timestamp := 31, open_ := 10050, high := 10050, low := 10050,
        close := 10050, volume := 1 }
    , { pair_id := 1, timestamp := 60, open_ := 10110, high := 10110, low := 10110,
        close := 10110, volume := 1 }
    , { pair_id := 1, timestamp := 244, open_ := 10180, high := 10180, low := 10180,
        close := 10180, volume := 1 } ] }

/-- A chain-metadata record used by the registry example. -/
def exampleChainData : ChainData :=
  { name := "Ethereum", slug := "ethereum", svg_icon := "", infoURL := "" }

/-- An already-initialised registry (non-empty `_chain_data`). -/
def exampleRegistry : ChainRegistry :=
  { _chain_data := [(1, exampleChainData)], _slug_map := [("ethereum", 1)] }

/-! ## Helper lemmas about `CandleFeed.apply_delta` -/

lemma truncate_after_of_mono (df : List Candle) (after : Int)
    (h : monotonic_increasing df ∨ monotonic_decreasing df) :
    truncate_after df after =
      Except.ok (df.filter (fun c => decide (c.timestamp ≤ after))) := by
  unfold truncate_after
  exact if_pos h

lemma apply_delta_eq_of_mono (feed : CandleFeed) (d : TradeDelta)
    (h : monotonic_increasing feed.candle_df ∨ monotonic_decreasing feed.candle_df) :
    feed.apply_delta d = Except.ok
      { timeframe := feed.timeframe
        candle_df := feed.candle_df.filter (fun c => decide (c.timestamp ≤ d.start_ts)) ++
          ohlcv_resample_trades d.trades feed.timeframe
        last_cycle := d.cycle } := by
  unfold CandleFeed.apply_delta
  rw [truncate_after_of_mono _ _ h]

lemma apply_delta_ok_elim (feed : CandleFeed) (d : TradeDelta) (feed2 : CandleFeed)
    (h : feed.apply_delta d = Except.ok feed2) :
    feed2 = { timeframe := feed.timeframe
              candle_df := feed.candle_df.filter (fun c => decide (c.timestamp ≤ d.start_ts)) ++
                ohlcv_resample_trades d.trades feed.timeframe
              last_cycle := d.cycle } := by
  by_cases hm : monotonic_increasing feed.candle_df ∨ monotonic_decreasing feed.candle_df
  · rw [apply_delta_eq_of_mono feed d hm] at h
    injection h with h2
    exact h2.symm
  · unfold CandleFeed.apply_delta truncate_after at h
    rw [if_neg hm] at h
    cases h

lemma monotonic_increasing_resample (trades : List Trade) (tf : Timeframe) :
    monotonic_increasing (ohlcv_resample_trades trades tf) :=
  List.sorted_insertionSort candleLe _

/-! ## Claims about `CandleFeed` -/

/-- C1 (counterexample): the truncation step of `apply_delta` does not
discard the row whose timestamp equals `delta.start_ts` — a feed owning
one candle at instant 0 keeps that candle across a delta whose
`start_ts` is 0, even though its timestamp is not strictly below
`start_ts`. -/
theorem apply_delta_retains_boundary_row_cex :
    CandleFeed.apply_delta exampleFeed exampleEmptyDelta =
      Except.ok { timeframe := exampleTimeframe, candle_df := [exampleCandle], last_cycle := 1 } ∧
    exampleCandle ∈
      ({ timeframe := exampleTimeframe, candle_df := [exampleCandle],
         last_cycle := 1 } : CandleFeed).candle_df ∧
    ¬ exampleCandle.timestamp < exampleEmptyDelta.start_ts :=
  ⟨rfl, by decide, by decide⟩

/-- C1 (amended): the truncation step of `apply_delta` discards exactly
the rows whose timestamp is strictly greater than `delta.start_ts`
(pandas `truncate(after=...)` is inclusive), so the retained prefix
contains exactly the rows with timestamp ≤ `delta.start_ts`, and the new
table is that prefix followed by the resampled candles. -/
theorem apply_delta_truncation_keeps_le_start_ts (feed : CandleFeed) (d : TradeDelta)
    (feed2 : CandleFeed) (h : feed.apply_delta d = Except.ok feed2) :
    feed2.candle_df =
      feed.candle_df.filter (fun c => decide (c.timestamp ≤ d.start_ts)) ++
        ohlcv_resample_trades d.trades feed.timeframe ∧
    ∀ c ∈ feed.candle_df,
      (c ∈ feed.candle_df.filter (fun c2 => decide (c2.timestamp ≤ d.start_ts)) ↔
        c.timestamp ≤ d.start_ts) := by
  constructor
  · rw [apply_delta_ok_elim feed d feed2 h]
  · intro c hc
    simp [List.mem_filter, hc]

/-- Witness for the amended C1 at a concrete feed and delta. -/
theorem apply_delta_truncation_keeps_le_start_ts_witness :
    CandleFeed.apply_delta exampleFeed exampleEmptyDelta =
      Except.ok { timeframe := exampleTimeframe, candle_df := [exampleCandle], last_cycle := 1 } ∧
    (({ timeframe := exampleTimeframe, candle_df := [exampleCandle],
        last_cycle := 1 } : CandleFeed).candle_df =
      exampleFeed.candle_df.filter
          (fun c => decide (c.timestamp ≤ exampleEmptyDelta.start_ts)) ++
        ohlcv_resample_trades exampleEmptyDelta.trades exampleFeed.timeframe ∧
    ∀ c ∈ exampleFeed.candle_df,
      (c ∈ exampleFeed.candle_df.filter
          (fun c2 => decide (c2.timestamp ≤ exampleEmptyDelta.start_ts)) ↔
        c.timestamp ≤ exampleEmptyDelta.start_ts)) :=
  ⟨rfl, apply_delta_truncation_keeps_le_start_ts exampleFeed exampleEmptyDelta _ rfl⟩

/-- C4 (counterexample): applying the same delta twice is not idempotent.
On a fresh feed, a delta with `start_ts` 0 whose trades resample to a
candle at instant 0 yields the table `[exampleCandle]` after one
application but `[exampleCandle, exampleCandle]` after two, because the
inclusive truncation retains the bucket at `start_ts` and the resampled
suffix regenerates it. -/
theorem apply_delta_not_idempotent_cex :
    ok_candles (Except.bind
        (CandleFeed.apply_delta (CandleFeed.init [] exampleTimeframe) exampleDelta)
        (fun f => f.apply_delta exampleDelta)) = [exampleCandle, exampleCandle] ∧
    ok_candles (CandleFeed.apply_delta (CandleFeed.init [] exampleTimeframe) exampleDelta) =
      [exampleCandle] ∧
    ([exampleCandle, exampleCandle] : List Candle) ≠ [exampleCandle] :=
  ⟨by decide, by decide, by decide⟩

/-- C4 (amended): delta application is idempotent provided every candle
resampled from the delta's trades has timestamp strictly greater than
`delta.start_ts` (so the regenerated suffix lies wholly beyond the
inclusively-truncated prefix); the owned table is assumed monotonic, as
pandas `truncate` requires. -/
theorem apply_delta_idempotent_of_fresh_suffix (feed : CandleFeed) (d : TradeDelta)
    (h1 : monotonic_increasing feed.candle_df)
    (h2 : ∀ c ∈ ohlcv_resample_trades d.trades feed.timeframe, d.start_ts < c.timestamp) :
    Except.bind (feed.apply_delta d) (fun f => f.apply_delta d) = feed.apply_delta d := by
  rw [apply_delta_eq_of_mono feed d (Or.inl h1)]
  have hP : monotonic_increasing
      (feed.candle_df.filter (fun c => decide (c.timestamp ≤ d.start_ts))) :=
    h1.sublist (List.filter_sublist _)
  have hR : monotonic_increasing (ohlcv_resample_trades d.trades feed.timeframe) :=
    monotonic_increasing_resample d.trades feed.timeframe
  have hcross : ∀ a ∈ feed.candle_df.filter (fun c => decide (c.timestamp ≤ d.start_ts)),
      ∀ b ∈ ohlcv_resample_trades d.trades feed.timeframe, candleLe a b := by
    intro a ha b hb
    have ha2 : a.timestamp ≤ d.start_ts := of_decide_eq_true (List.mem_filter.mp ha).2
    exact le_trans ha2 (le_of_lt (h2 b hb))
  have hPR : monotonic_increasing
      (feed.candle_df.filter (fun c => decide (c.timestamp ≤ d.start_ts)) ++
        ohlcv_resample_trades d.trades feed.timeframe) :=
    List.pairwise_append.mpr ⟨hP, hR, hcross⟩
  simp only [Except.bind]
  rw [apply_delta_eq_of_mono _ d (Or.inl hPR)]
  have hPf : (feed.candle_df.filter (fun c => decide (c.timestamp ≤ d.start_ts))).filter
      (fun c => decide (c.timestamp ≤ d.start_ts)) =
      feed.candle_df.filter (fun c => decide (c.timestamp ≤ d.start_ts)) :=
    List.filter_eq_self.mpr (fun a ha => (List.mem_filter.mp ha).2)
  have hRf : (ohlcv_resample_trades d.trades feed.timeframe).filter
      (fun c => decide (c.timestamp ≤ d.start_ts)) = [] :=
    List.filter_eq_nil_iff.mpr
      (fun a ha => by simpa using not_le.mpr (h2 a ha))
  simp only [List.filter_append, hPf, hRf, List.append_nil]

/-- Witness for the amended C4: a fresh feed and a delta whose resampled
candle lies strictly after `start_ts`. -/
theorem apply_delta_idempotent_of_fresh_suffix_witness :
    monotonic_increasing (CandleFeed.init [] exampleTimeframe).candle_df ∧
    (∀ c ∈ ohlcv_resample_trades exampleFreshDelta.trades
        (CandleFeed.init [] exampleTimeframe).timeframe,
      exampleFreshDelta.start_ts < c.timestamp) ∧
    Except.bind ((CandleFeed.init [] exampleTimeframe).apply_delta exampleFreshDelta)
        (fun f => f.apply_delta exampleFreshDelta) =
      (CandleFeed.init [] exampleTimeframe).apply_delta exampleFreshDelta :=
  ⟨by decide, by decide,
    apply_delta_idempotent_of_fresh_suffix _ _ (by decide) (by decide)⟩

/-- C5 (counterexample): `apply_delta` does not fail loudly when the
resampled candles share a timestamp with the truncated prefix.  On a
feed owning the candle at instant 0, a delta with `start_ts` 0 whose
trades regenerate that candle succeeds and yields a table whose
timestamp index is `[0, 0]` — duplicate rows, no error. -/
theorem apply_delta_silently_duplicates_cex :
    CandleFeed.apply_delta exampleFeedCycle3 exampleOverlapDelta =
      Except.ok { timeframe := exampleTimeframe,
                  candle_df := [exampleCandle, exampleCandle], last_cycle := 4 } ∧
    exampleCandle ∈ exampleFeedCycle3.candle_df.filter
      (fun c => decide (c.timestamp ≤ exampleOverlapDelta.start_ts)) ∧
    exampleCandle ∈
      ohlcv_resample_trades exampleOverlapDelta.trades exampleFeedCycle3.timeframe ∧
    List.map Candle.timestamp [exampleCandle, exampleCandle] = [0, 0] :=
  ⟨rfl, by decide, by decide, by decide⟩

/-- C5 (amended): `apply_delta` performs no duplicate-timestamp check.
Whenever the owned table has a monotonic (non-decreasing) index it
succeeds unconditionally, returning the inclusively-truncated prefix
concatenated with the resampled candles — even when the two parts share
timestamps, in which case the duplicates are silently included. -/
theorem apply_delta_no_duplicate_check (feed : CandleFeed) (d : TradeDelta)
    (h : monotonic_increasing feed.candle_df) :
    feed.apply_delta d = Except.ok
      { timeframe := feed.timeframe
        candle_df := feed.candle_df.filter (fun c => decide (c.timestamp ≤ d.start_ts)) ++
          ohlcv_resample_trades d.trades feed.timeframe
        last_cycle := d.cycle } :=
  apply_delta_eq_of_mono feed d (Or.inl h)

/-- Witness for the amended C5 at the concrete overlapping input. -/
theorem apply_delta_no_duplicate_check_witness :
    monotonic_increasing exampleFeedCycle3.candle_df ∧
    CandleFeed.apply_delta exampleFeedCycle3 exampleOverlapDelta = Except.ok
      { timeframe := exampleFeedCycle3.timeframe
        candle_df := exampleFeedCycle3.candle_df.filter
            (fun c => decide (c.timestamp ≤ exampleOverlapDelta.start_ts)) ++
          ohlcv_resample_trades exampleOverlapDelta.trades exampleFeedCycle3.timeframe
        last_cycle := exampleOverlapDelta.cycle } :=
  ⟨by decide, apply_delta_no_duplicate_check exampleFeedCycle3 exampleOverlapDelta (by decide)⟩

/-- C7: after a successful `apply_delta(delta)` the feed's `last_cycle`
field equals `delta.cycle`. -/
theorem apply_delta_records_cycle (feed : CandleFeed) (d : TradeDelta) (feed2 : CandleFeed)
    (h : feed.apply_delta d = Except.ok feed2) : feed2.last_cycle = d.cycle := by
  rw [apply_delta_ok_elim feed d feed2 h]

/-- Witness for C7 at a concrete feed and delta. -/
theorem apply_delta_records_cycle_witness :
    CandleFeed.apply_delta exampleFeed exampleEmptyDelta =
      Except.ok { timeframe := exampleTimeframe, candle_df := [exampleCandle], last_cycle := 1 } ∧
    ({ timeframe := exampleTimeframe, candle_df := [exampleCandle],
       last_cycle := 1 } : CandleFeed).last_cycle = exampleEmptyDelta.cycle :=
  ⟨rfl, apply_delta_records_cycle exampleFeed exampleEmptyDelta _ rfl⟩

/-- C9: the constructor's `pairs` argument is never stored: two feeds
built from the same timeframe but different pair lists are equal as
states, and remain equal (tables, `last_cycle`, and
`get_candles_by_pair` results included) under every identical sequence
of `apply_delta` calls. -/
theorem candle_feed_pairs_argument_never_observed (P1 P2 : List PairId) (tf : Timeframe)
    (ds : List TradeDelta) :
    CandleFeed.init P1 tf = CandleFeed.init P2 tf ∧
    (CandleFeed.init P1 tf).apply_deltas ds = (CandleFeed.init P2 tf).apply_deltas ds ∧
    Except.map CandleFeed.last_cycle ((CandleFeed.init P1 tf).apply_deltas ds) =
      Except.map CandleFeed.last_cycle ((CandleFeed.init P2 tf).apply_deltas ds) ∧
    ∀ pid : PairId,
      Except.map (fun f => f.get_candles_by_pair pid)
          ((CandleFeed.init P1 tf).apply_deltas ds) =
        Except.map (fun f => f.get_candles_by_pair pid)
          ((CandleFeed.init P2 tf).apply_deltas ds) :=
  ⟨rfl, rfl, rfl, fun _ => rfl⟩

/-- C10: a freshly constructed feed has an empty candle table and
`last_cycle = 0`, and the first `apply_delta` on it yields exactly the
resampled candles of the delta's trades (the empty table contributes no
prefix rows). -/
theorem candle_feed_fresh_and_first_delta (pairs : List PairId) (tf : Timeframe)
    (d : TradeDelta) :
    (CandleFeed.init pairs tf).candle_df = [] ∧
    (CandleFeed.init pairs tf).last_cycle = 0 ∧
    (CandleFeed.init pairs tf).apply_delta d =
      Except.ok { timeframe := tf, candle_df := ohlcv_resample_trades d.trades tf,
                  last_cycle := d.cycle } := by
  refine ⟨rfl, rfl, ?_⟩
  have hmono : monotonic_increasing (CandleFeed.init pairs tf).candle_df :=
    List.Pairwise.nil
  rw [apply_delta_eq_of_mono _ _ (Or.inl hmono)]
  rfl

/-! ## Helper lemmas about the tolerant lookup -/

lemma last_at_or_before_eq_none_iff (l : List Candle) (w : Int) :
    last_at_or_before l w = none ↔ ∀ c ∈ l, w < c.timestamp := by
  induction l with
  | nil =>
    constructor
    · intro _ c hc
      exact absurd hc (List.not_mem_nil c)
    · intro _
      rfl
  | cons a t ih =>
    constructor
    · intro h c hc
      cases ht : last_at_or_before t w with
      | some c2 =>
        have he : last_at_or_before (a :: t) w = some c2 := by
          unfold last_at_or_before
          rw [ht]
        rw [he] at h
        cases h
      | none =>
        have he : last_at_or_before (a :: t) w =
            if a.timestamp ≤ w then some a else none := by
          unfold last_at_or_before
          rw [ht]
        rw [he] at h
        rcases List.mem_cons.mp hc with rfl | hm
        · by_cases hle : c.timestamp ≤ w
          · rw [if_pos hle] at h
            cases h
          · exact not_le.mp hle
        · exact (ih.mp ht) c hm
    · intro hall
      cases ht : last_at_or_before t w with
      | some c2 =>
        have : last_at_or_before t w = none :=
          ih.mpr (fun c hc => hall c (List.mem_cons_of_mem a hc))
        rw [ht] at this
        cases this
      | none =>
        unfold last_at_or_before
        rw [ht]
        rw [if_neg (not_le.mpr (hall a (List.mem_cons_self a t)))]

lemma last_at_or_before_mem_le (l : List Candle) (w : Int) (c : Candle)
    (h : last_at_or_before l w = some c) : c ∈ l ∧ c.timestamp ≤ w := by
  induction l with
  | nil => cases h
  | cons a t ih =>
    cases ht : last_at_or_before t w with
    | some c2 =>
      have he : last_at_or_before (a :: t) w = some c2 := by
        unfold last_at_or_before
        rw [ht]
      rw [he] at h
      injection h with h2
      subst h2
      obtain ⟨hm, hle⟩ := ih ht
      exact ⟨List.mem_cons_of_mem a hm, hle⟩
    | none =>
      have he : last_at_or_before (a :: t) w =
          if a.timestamp ≤ w then some a else none := by
        unfold last_at_or_before
        rw [ht]
      rw [he] at h
      by_cases hle : a.timestamp ≤ w
      · rw [if_pos hle] at h
        injection h with h2
        subst h2
        exact ⟨List.mem_cons_self a t, hle⟩
      · rw [if_neg hle] at h
        cases h

lemma last_at_or_before_greatest (l : List Candle) (w : Int) (c : Candle)
    (hs : l.Pairwise candleLe) (h : last_at_or_before l w = some c) :
    ∀ c2 ∈ l, c2.timestamp ≤ w → c2.timestamp ≤ c.timestamp := by
  induction l with
  | nil =>
    intro c2 hc2
    exact absurd hc2 (List.not_mem_nil c2)
  | cons a t ih =>
    rw [List.pairwise_cons] at hs
    obtain ⟨ha, ht2⟩ := hs
    intro c2 hc2 hc2w
    cases ht : last_at_or_before t w with
    | some c3 =>
      have he : last_at_or_before (a :: t) w = some c3 := by
        unfold last_at_or_before
        rw [ht]
      rw [he] at h
      injection h with h2
      subst h2
      rcases List.mem_cons.mp hc2 with rfl | hm
      · exact ha _ ((last_at_or_before_mem_le t w _ ht).1)
      · exact ih ht2 ht c2 hm hc2w
    | none =>
      have he : last_at_or_before (a :: t) w =
          if a.timestamp ≤ w then some a else none := by
        unfold last_at_or_before
        rw [ht]
      rw [he] at h
      by_cases hle : a.timestamp ≤ w
      · rw [if_pos hle] at h
        injection h with h2
        subst h2
        rcases List.mem_cons.mp hc2 with rfl | hm
        · exact le_refl _
        · exact absurd hc2w (not_le.mpr ((last_at_or_before_eq_none_iff t w).mp ht c2 hm))
      · rw [if_neg hle] at h
        cases h

lemma pairwise_lt_timestamp_inj (l : List Candle) (hs : l.Pairwise candleLt) :
    ∀ a ∈ l, ∀ b ∈ l, a.timestamp = b.timestamp → a = b := by
  induction l with
  | nil =>
    intro a ha
    exact absurd ha (List.not_mem_nil a)
  | cons x t ih =>
    rw [List.pairwise_cons] at hs
    obtain ⟨hx, ht⟩ := hs
    intro a ha b hb heq
    rcases List.mem_cons.mp ha with rfl | ha2 <;> rcases List.mem_cons.mp hb with rfl | hb2
    · rfl
    · exact absurd heq (ne_of_lt (hx b hb2))
    · exact absurd heq.symm (ne_of_lt (hx a ha2))
    · exact ih ht a ha2 b hb2 heq

/-! ## Claims about the grouped universe -/

/-- C2: on a pair's ascending (strictly, by the universe invariant)
candle series, `get_price_with_tolerance(pair_id, when, tolerance)`
returns `(price, distance)` with `price` the close of the candle with
the greatest timestamp ≤ `when` and `distance = when - timestamp`;
it succeeds exactly when such a candle exists and its distance is within
the tolerance (boundary inclusive), and fails with
`CandleSampleUnavailable` exactly when no candle has timestamp ≤ `when`
or the nearest such candle has distance > tolerance. -/
theorem get_price_with_tolerance_spec (u : GroupedCandleUniverse) (pair_id : Nat)
    (w tol : Int)
    (hs : (u.get_candles_by_pair pair_id).Pairwise candleLt) :
    (∀ price dist, u.get_price_with_tolerance pair_id w tol = Except.ok (price, dist) →
      ∃ c ∈ u.get_candles_by_pair pair_id, c.timestamp ≤ w ∧
        (∀ c2 ∈ u.get_candles_by_pair pair_id, c2.timestamp ≤ w → c2.timestamp ≤ c.timestamp) ∧
        price = c.close ∧ dist = w - c.timestamp ∧ dist ≤ tol) ∧
    (∀ c ∈ u.get_candles_by_pair pair_id, c.timestamp ≤ w →
      (∀ c2 ∈ u.get_candles_by_pair pair_id, c2.timestamp ≤ w → c2.timestamp ≤ c.timestamp) →
      w - c.timestamp ≤ tol →
      u.get_price_with_tolerance pair_id w tol = Except.ok (c.close, w - c.timestamp)) ∧
    ((∃ e, u.get_price_with_tolerance pair_id w tol = Except.error e) ↔
      ((∀ c ∈ u.get_candles_by_pair pair_id, w < c.timestamp) ∨
       (∃ c ∈ u.get_candles_by_pair pair_id, c.timestamp ≤ w ∧
         (∀ c2 ∈ u.get_candles_by_pair pair_id, c2.timestamp ≤ w → c2.timestamp ≤ c.timestamp) ∧
         tol < w - c.timestamp))) := by
  have hsle : (u.get_candles_by_pair pair_id).Pairwise candleLe :=
    hs.imp (fun h => le_of_lt h)
  cases hl : last_at_or_before (u.get_candles_by_pair pair_id) w with
  | none =>
    have hg : u.get_price_with_tolerance pair_id w tol =
        Except.error "CandleSampleUnavailable" := by
      unfold GroupedCandleUniverse.get_price_with_tolerance
      rw [hl]
    refine ⟨?_, ?_, ?_⟩
    · intro price dist hok
      rw [hg] at hok
      cases hok
    · intro c hc hcw _ _
      exact absurd hcw (not_le.mpr ((last_at_or_before_eq_none_iff _ w).mp hl c hc))
    · constructor
      · intro _
        exact Or.inl ((last_at_or_before_eq_none_iff _ w).mp hl)
      · intro _
        exact ⟨"CandleSampleUnavailable", hg⟩
  | some c0 =>
    obtain ⟨hm0, hle0⟩ := last_at_or_before_mem_le _ w c0 hl
    have hg0 := last_at_or_before_greatest _ w c0 hsle hl
    by_cases htol : tol < w - c0.timestamp
    · have hg : u.get_price_with_tolerance pair_id w tol =
          Except.error "CandleSampleUnavailable" := by
        unfold GroupedCandleUniverse.get_price_with_tolerance
        rw [hl]
        exact if_pos htol
      refine ⟨?_, ?_, ?_⟩
      · intro price dist hok
        rw [hg] at hok
        cases hok
      · intro c hc hcw hgr hd
        have h1 : c.timestamp ≤ c0.timestamp := hg0 c hc hcw
        have h2 : c0.timestamp ≤ c.timestamp := hgr c0 hm0 hle0
        have heqts : c0.timestamp = c.timestamp := le_antisymm h2 h1
        rw [← heqts] at hd
        exact absurd htol (not_lt.mpr hd)
      · constructor
        · intro _
          exact Or.inr ⟨c0, hm0, hle0, hg0, htol⟩
        · intro _
          exact ⟨"CandleSampleUnavailable", hg⟩
    · have hg : u.get_price_with_tolerance pair_id w tol =
          Except.ok (c0.close, w - c0.timestamp) := by
        unfold GroupedCandleUniverse.get_price_with_tolerance
        rw [hl]
        exact if_neg htol
      refine ⟨?_, ?_, ?_⟩
      · intro price dist hok
        rw [hg] at hok
        injection hok with h2
        injection h2 with hp hd
        refine ⟨c0, hm0, hle0, hg0, hp.symm, hd.symm, ?_⟩
        rw [← hd]
        exact not_lt.mp htol
      · intro c hc hcw hgr hd
        have h1 : c.timestamp ≤ c0.timestamp := hg0 c hc hcw
        have h2 : c0.timestamp ≤ c.timestamp := hgr c0 hm0 hle0
        have heq : c = c0 := pairwise_lt_timestamp_inj _ hs c hc c0 hm0 (le_antisymm h1 h2)
        rw [heq]
        exact hg
      · constructor
        · rintro ⟨e, he⟩
          rw [hg] at he
          cases he
        · intro hOr
          exfalso
          rcases hOr with hall | ⟨c, hc, hcw, hgr, htolc⟩
          · exact absurd hle0 (not_le.mpr (hall c0 hm0))
          · have h1 : c.timestamp ≤ c0.timestamp := hg0 c hc hcw
            have h2 : c0.timestamp ≤ c.timestamp := hgr c0 hm0 hle0
            have heqts : c.timestamp = c0.timestamp := le_antisymm h1 h2
            rw [heqts] at htolc
            exact absurd htolc htol

/-- Witness for C2 on the test suite's synthetic series, querying one day
after the first candle with a one-day tolerance. -/
theorem get_price_with_tolerance_spec_witness :
    (exampleUniverse.get_candles_by_pair 1).Pairwise candleLt ∧
    exampleUniverse.get_price_with_tolerance 1 1 1 = Except.ok (10010, 1) ∧
    (∀ price dist, exampleUniverse.get_price_with_tolerance 1 1 1 = Except.ok (price, dist) →
      ∃ c ∈ exampleUniverse.get_candles_by_pair 1, c.timestamp ≤ 1 ∧
        (∀ c2 ∈ exampleUniverse.get_candles_by_pair 1, c2.timestamp ≤ 1 →
          c2.timestamp ≤ c.timestamp) ∧
        price = c.close ∧ dist = 1 - c.timestamp ∧ dist ≤ 1) :=
  ⟨by decide, rfl, (get_price_with_tolerance_spec exampleUniverse 1 1 1 (by decide)).1⟩

lemma takeWhile_lt_mem (l : List Candle) (T : Int) (hs : l.Pairwise candleLe) (c : Candle) :
    c ∈ l.takeWhile (fun x => decide (x.timestamp < T)) ↔ c ∈ l ∧ c.timestamp < T := by
  induction l with
  | nil => simp
  | cons a t ih =>
    rw [List.pairwise_cons] at hs
    obtain ⟨ha, ht⟩ := hs
    rw [List.takeWhile_cons]
    by_cases hlt : a.timestamp < T
    · rw [if_pos (by simpa using hlt)]
      constructor
      · intro hmem
        rcases List.mem_cons.mp hmem with rfl | hm
        · exact ⟨List.mem_cons_self _ _, hlt⟩
        · obtain ⟨hm2, hlt2⟩ := (ih ht).mp hm
          exact ⟨List.mem_cons_of_mem a hm2, hlt2⟩
      · rintro ⟨hmem, hclt⟩
        rcases List.mem_cons.mp hmem with rfl | hm
        · exact List.mem_cons_self c _
        · exact List.mem_cons_of_mem a ((ih ht).mpr ⟨hm, hclt⟩)
    · rw [if_neg (by simpa using hlt)]
      constructor
      · intro hmem
        exact absurd hmem (List.not_mem_nil c)
      · rintro ⟨hmem, hclt⟩
        exfalso
        rcases List.mem_cons.mp hmem with rfl | hm
        · exact hlt hclt
        · exact hlt (lt_of_le_of_lt (ha c hm) hclt)

lemma takeWhile_le_mem (l : List Candle) (T : Int) (hs : l.Pairwise candleLe) (c : Candle) :
    c ∈ l.takeWhile (fun x => decide (x.timestamp ≤ T)) ↔ c ∈ l ∧ c.timestamp ≤ T := by
  induction l with
  | nil => simp
  | cons a t ih =>
    rw [List.pairwise_cons] at hs
    obtain ⟨ha, ht⟩ := hs
    rw [List.takeWhile_cons]
    by_cases hle : a.timestamp ≤ T
    · rw [if_pos (by simpa using hle)]
      constructor
      · intro hmem
        rcases List.mem_cons.mp hmem with rfl | hm
        · exact ⟨List.mem_cons_self _ _, hle⟩
        · obtain ⟨hm2, hle2⟩ := (ih ht).mp hm
          exact ⟨List.mem_cons_of_mem a hm2, hle2⟩
      · rintro ⟨hmem, hcle⟩
        rcases List.mem_cons.mp hmem with rfl | hm
        · exact List.mem_cons_self c _
        · exact List.mem_cons_of_mem a ((ih ht).mpr ⟨hm, hcle⟩)
    · rw [if_neg (by simpa using hle)]
      constructor
      · intro hmem
        exact absurd hmem (List.not_mem_nil c)
      · rintro ⟨hmem, hcle⟩
        exfalso
        rcases List.mem_cons.mp hmem with rfl | hm
        · exact hle hcle
        · exact hle (le_trans (ha c hm) hcle)

/-- C3: on an ascending single-pair series, `get_single_pair_data(T,
allow_current := false)` returns exactly the rows with timestamp
strictly before `T`; with `allow_current := true` the rows at exactly
`T` are additionally included; and in neither mode is a row with
timestamp greater than `T` returned (the forward-looking-bias guard). -/
theorem get_single_pair_data_no_bias (u : GroupedCandleUniverse) (T : Int)
    (hs : u.df.Pairwise candleLe) :
    (∀ c, c ∈ u.get_single_pair_data T false ↔ c ∈ u.df ∧ c.timestamp < T) ∧
    (∀ c, c ∈ u.get_single_pair_data T true ↔ c ∈ u.df ∧ c.timestamp ≤ T) ∧
    (∀ b : Bool, ∀ c ∈ u.get_single_pair_data T b, ¬ T < c.timestamp) := by
  refine ⟨?_, ?_, ?_⟩
  · intro c
    exact takeWhile_lt_mem u.df T hs c
  · intro c
    exact takeWhile_le_mem u.df T hs c
  · intro b c hc
    cases b with
    | false =>
      exact not_lt.mpr (le_of_lt ((takeWhile_lt_mem u.df T hs c).mp hc).2)
    | true =>
      exact not_lt.mpr ((takeWhile_le_mem u.df T hs c).mp hc).2

/-- Witness for C3 on the test suite's synthetic series at the query
instant of the last candle. -/
theorem get_single_pair_data_no_bias_witness :
    exampleUniverse.df.Pairwise candleLe ∧
    (∀ c, c ∈ exampleUniverse.get_single_pair_data 244 false ↔
      c ∈ exampleUniverse.df ∧ c.timestamp < 244) ∧
    (∀ c, c ∈ exampleUniverse.get_single_pair_data 244 true ↔
      c ∈ exampleUniverse.df ∧ c.timestamp ≤ 244) ∧
    (∀ b : Bool, ∀ c ∈ exampleUniverse.get_single_pair_data 244 b, ¬ 244 < c.timestamp) :=
  ⟨by decide, (get_single_pair_data_no_bias exampleUniverse 244 (by decide)).1,
    (get_single_pair_data_no_bias exampleUniverse 244 (by decide)).2.1,
    (get_single_pair_data_no_bias exampleUniverse 244 (by decide)).2.2⟩

/-- C6: the tolerant lookup is weakly monotone in the tolerance: for a
fixed pair, series and instant, a lookup succeeding at tolerance `t1`
also succeeds (with the same price and distance) at any tolerance
`t2 ≥ t1`. -/
theorem get_price_with_tolerance_monotone (u : GroupedCandleUniverse) (pair_id : Nat)
    (w t1 t2 : Int) (h12 : t1 ≤ t2) (price dist : Int)
    (h : u.get_price_with_tolerance pair_id w t1 = Except.ok (price, dist)) :
    u.get_price_with_tolerance pair_id w t2 = Except.ok (price, dist) := by
  cases hl : last_at_or_before (u.get_candles_by_pair pair_id) w with
  | none =>
    have hg : u.get_price_with_tolerance pair_id w t1 =
        Except.error "CandleSampleUnavailable" := by
      unfold GroupedCandleUniverse.get_price_with_tolerance
      rw [hl]
    rw [hg] at h
    cases h
  | some c =>
    by_cases ht1 : t1 < w - c.timestamp
    · have hg : u.get_price_with_tolerance pair_id w t1 =
          Except.error "CandleSampleUnavailable" := by
        unfold GroupedCandleUniverse.get_price_with_tolerance
        rw [hl]
        exact if_pos ht1
      rw [hg] at h
      cases h
    · have hg1 : u.get_price_with_tolerance pair_id w t1 =
          Except.ok (c.close, w - c.timestamp) := by
        unfold GroupedCandleUniverse.get_price_with_tolerance
        rw [hl]
        exact if_neg ht1
      have hg2 : u.get_price_with_tolerance pair_id w t2 =
          Except.ok (c.close, w - c.timestamp) := by
        unfold GroupedCandleUniverse.get_price_with_tolerance
        rw [hl]
        exact if_neg (not_lt.mpr (le_trans (not_lt.mp ht1) h12))
      rw [hg1] at h
      rw [hg2]
      exact h

/-- Witness for C6: the lookup one day after the first synthetic candle
succeeds at tolerance 1 and hence also at tolerance 2. -/
theorem get_price_with_tolerance_monotone_witness :
    (1 : Int) ≤ 2 ∧
    exampleUniverse.get_price_with_tolerance 1 1 1 = Except.ok (10010, 1) ∧
    exampleUniverse.get_price_with_tolerance 1 1 2 = Except.ok (10010, 1) :=
  ⟨by decide, rfl, get_price_with_tolerance_monotone exampleUniverse 1 1 1 2 (by decide)
    10010 1 rfl⟩

/-! ## Claim about the chain-metadata registry -/

/-- C8: once `_chain_data` is non-empty, `_ensure_chain_data_lazy_init`
returns immediately without modifying `_chain_data` or `_slug_map`, so
`_get_slug_map` returns the existing slug map unchanged and
`_get_chain_data` reads the existing `_chain_data` on every access
after the first, whatever the filesystem contents are. -/
theorem ensure_chain_data_lazy_init_idempotent (folder_exists : Bool)
    (fs : Nat → Option ChainData) (s : ChainRegistry)
    (h : s._chain_data ≠ []) :
    _ensure_chain_data_lazy_init folder_exists fs s = Except.ok s ∧
    _get_slug_map folder_exists fs s = Except.ok (s, s._slug_map) ∧
    ∀ chain_id : Nat, _get_chain_data folder_exists fs s chain_id =
      (match chain_data_get s._chain_data chain_id with
       | none => Except.error "KeyError"
       | some d => Except.ok (s, d)) := by
  have he : s._chain_data.isEmpty = false := by
    cases hcd : s._chain_data with
    | nil => exact absurd hcd h
    | cons a t => rfl
  have h1 : _ensure_chain_data_lazy_init folder_exists fs s = Except.ok s := by
    unfold _ensure_chain_data_lazy_init
    rw [he]
    rfl
  refine ⟨h1, ?_, ?_⟩
  · unfold _get_slug_map
    rw [h1]
  · intro chain_id
    unfold _get_chain_data
    rw [h1]

/-- Witness for C8 on a concrete already-initialised registry. -/
theorem ensure_chain_data_lazy_init_idempotent_witness :
    exampleRegistry._chain_data ≠ [] ∧
    _ensure_chain_data_lazy_init true (fun _ => none) exampleRegistry =
      Except.ok exampleRegistry ∧
    _get_slug_map true (fun _ => none) exampleRegistry =
      Except.ok (exampleRegistry, exampleRegistry._slug_map) ∧
    ∀ chain_id : Nat, _get_chain_data true (fun _ => none) exampleRegistry chain_id =
      (match chain_data_get exampleRegistry._chain_data chain_id with
       | none => Except.error "KeyError"
       | some d => Except.ok (exampleRegistry, d)) :=
  ⟨by decide, (ensure_chain_data_lazy_init_idempotent true (fun _ => none)
      exampleRegistry (by decide)).1,
    (ensure_chain_data_lazy_init_idempotent true (fun _ => none)
      exampleRegistry (by decide)).2.1,
    (ensure_chain_data_lazy_init_idempotent true (fun _ => none)
      exampleRegistry (by decide)).2.2⟩
